import Mathlib

/-!
Verification development for the harmony operation router
(`app/models/services/index.js`-style module, given as `src/unnamed/part_000`)
and the backend callback handler (`src/app/backends/service-response.ts`).

The JavaScript/TypeScript sources are shallowly embedded: objects become
structures, `undefined`-able string fields become `Option String`,
in-place mutation of the operation and of the module-level no-op service
descriptor becomes explicit state passing, and thrown exceptions become
`Except` values.  JS string truthiness (`undefined` and `""` are falsy)
is modelled by `truthyStr`.

The external MIME-negotiation predicate `isMimeTypeAccepted` is consumed
by the router as a pure function; router definitions are parameterized by
an arbitrary such predicate `accepts`, and a concrete wildcard-aware
instance (modelled from the spec) is used for concrete evaluations.
-/

namespace Harmony

/-- JS truthiness for an optional string: `undefined` and `""` are falsy. -/
def truthyStr : Option String → Bool
  | none => false
  | some s => s ≠ ""

/-- JS string coercion of a possibly-`undefined` string (as used by
string concatenation and template interpolation). -/
def jsStrOpt : Option String → String
  | none => "undefined"
  | some s => s

/-- Splitting a character list on a single separator character (JS
`String.prototype.split` semantics: an empty string yields `[""]`, a
trailing separator yields a trailing `""`). -/
def splitCharsAux (sep : Char) : List Char → List (List Char)
  | [] => [[]]
  | c :: cs =>
    if c = sep then [] :: splitCharsAux sep cs
    else
      match splitCharsAux sep cs with
      | [] => [[c]]
      | g :: gs => (c :: g) :: gs

/-- JS `String.prototype.split` with a single-character separator. -/
def jsSplit (sep : Char) (s : String) : List String :=
  (splitCharsAux sep s.data).map (fun cs => String.mk cs)

/-- A source of a data operation: a collection plus requested variables
(`operation.sources` entries). -/
structure Source where
  collection : String
  -- JS field `variables` (renamed: `variables` is a Lean keyword)
  variableIds : List String
  deriving DecidableEq

/-- A data operation as seen by the router: `sources` and the mutable
`outputFormat` (absent = JS `undefined`). -/
structure Operation where
  sources : List Source
  outputFormat : Option String
  deriving DecidableEq

/-- The routing context; `requestedMimeTypes` absent or empty is modelled
as `[]` (both are falsy in the guards that read it). -/
structure RoutingContext where
  requestedMimeTypes : List String
  deriving DecidableEq

/-- One service configuration from `services.yml`, flattened:
`typeName` is `config.type.name`, `outputFormats` is
`capabilities.output_formats` (the `getIn` default `[]`),
`variableSubsetting` is `capabilities.subsetting.variable` (default
`false`).  `message` is the diagnostic slot the router writes on the
no-op service object. -/
structure ServiceConfig where
  typeName : String
  collections : List String
  outputFormats : List String
  variableSubsetting : Bool
  message : Option String := none
  deriving DecidableEq

/-- The closed set of backend kinds in `serviceTypesToServiceClasses`. -/
inductive ServiceKind where
  | docker
  | http
  | noOp
  deriving DecidableEq

/-- `serviceTypesToServiceClasses` — the closed kind-to-constructor map. -/
def serviceTypesToServiceClasses : String → Option ServiceKind
  | "docker" => some .docker
  | "http" => some .http
  | "noOp" => some .noOp
  | _ => none

/-- Errors the embedded router code can signal.  `unsupportedOperation`
is the internal routing signal, `notFound` is the adapter factory's
`NotFoundError`, and `typeError` is a raw JS `TypeError` (reachable only
from dead code paths, kept for fidelity). -/
inductive RouterError where
  | unsupportedOperation (msg : String)
  | notFound (msg : String)
  | typeError (msg : String)
  deriving DecidableEq

/-- A built service: an adapter-class kind bound to a configuration and
an operation (the result of `new ServiceClass(serviceConfig, operation)`). -/
structure Service where
  kind : ServiceKind
  config : ServiceConfig
  operation : Operation
  deriving DecidableEq

/-- `buildService` — maps `serviceConfig.type.name` through the closed
constructor map; unknown kind throws `NotFoundError`. -/
def buildService (serviceConfig : ServiceConfig) (operation : Operation) :
    Except RouterError Service :=
  match serviceTypesToServiceClasses serviceConfig.typeName with
  | some k => .ok { kind := k, config := serviceConfig, operation := operation }
  | none => .error (.notFound
      ("Could not find an appropriate service class for type \"" ++ serviceConfig.typeName ++ "\""))

/-- `isCollectionMatch` — every source's collection is in the service's
`collections`. -/
def isCollectionMatch (operation : Operation) (serviceConfig : ServiceConfig) : Bool :=
  operation.sources.all (fun source => serviceConfig.collections.contains source.collection)

/-- `selectServicesForFormat` — keeps configs whose `output_formats`
contain an entry accepted by the requested `format`.  The JS `filter`
tests the truthiness of `find`, so a found empty-string entry does not
count. -/
def selectServicesForFormat (accepts : String → String → Bool)
    (format : String) (configs : List ServiceConfig) : List ServiceConfig :=
  configs.filter (fun config =>
    truthyStr (config.outputFormats.find? (fun f => accepts f format)))

/-- The loop body of `selectFormat`: scan the requested MIME types in
order, carrying the running (possibly falsy) `outputFormat` and breaking
as soon as it is truthy. -/
def selectFormatLoop (accepts : String → String → Bool) (configs : List ServiceConfig)
    (outputFormat : Option String) : List String → Option String
  | [] => outputFormat
  | mimeType :: rest =>
    let services := selectServicesForFormat accepts mimeType configs
    let outputFormat' :=
      match services with
      | [] => outputFormat
      | s :: _ => s.outputFormats.find? (fun f => accepts f mimeType)
    if truthyStr outputFormat' then outputFormat'
    else selectFormatLoop accepts configs outputFormat' rest

/-- `selectFormat` — returns the operation's own `outputFormat` when
truthy, otherwise scans `context.requestedMimeTypes`. -/
def selectFormat (accepts : String → String → Bool) (operation : Operation)
    (context : RoutingContext) (configs : List ServiceConfig) : Option String :=
  if ¬ truthyStr operation.outputFormat ∧ ¬ context.requestedMimeTypes.isEmpty then
    selectFormatLoop accepts configs operation.outputFormat context.requestedMimeTypes
  else operation.outputFormat

/-- `requiresVariableSubsetting` — some source has a non-empty
`variables` list. -/
def requiresVariableSubsetting (operation : Operation) : Bool :=
  ¬ (operation.sources.filter (fun s => ¬ s.variableIds.isEmpty)).isEmpty

/-- `supportsVariableSubsetting` — configs with
`capabilities.subsetting.variable` set. -/
def supportsVariableSubsetting (configs : List ServiceConfig) : List ServiceConfig :=
  configs.filter (fun config => config.variableSubsetting)

/-- The module-level `noOpService` object (its `message` slot starts
unset). -/
def noOpService : ServiceConfig :=
  { typeName := "noOp"
    collections := []
    outputFormats := ["application/json"]
    variableSubsetting := false
    message := none }

/-- Stage-1 failure message. -/
def collectionErrMsg : String := "no services are configured for the collection"

/-- Stage-2 failure message. -/
def variableErrMsg : String :=
  "none of the services configured for the collection support variable subsetting"

/-- Fixed head of the stage-3 failure message. -/
def formatErrMsgHead : String :=
  "none of the services configured for the collection support reformatting to any of the requested formats "

/-- Fixed head of the combination-diagnosis message. -/
def combinationMsgHead : String :=
  "none of the services support the combination of both variable subsetting and any of the requested formats "

/-- The interpolation `${operation.outputFormat || context.requestedMimeTypes}`:
a truthy output format prints itself, otherwise the array prints as its
comma-joined elements. -/
def formatsDesc (operation : Operation) (context : RoutingContext) : String :=
  match operation.outputFormat with
  | some f => if f = "" then String.intercalate "," context.requestedMimeTypes else f
  | none => String.intercalate "," context.requestedMimeTypes

/-- `filterCollectionMatches` — stage 1; throws `UnsupportedOperation`
(modelled as `Except.error`) when no config matches. -/
def filterCollectionMatches (operation : Operation) (_context : RoutingContext)
    (configs : List ServiceConfig) : Except String (List ServiceConfig) :=
  let matched := configs.filter (fun config => isCollectionMatch operation config)
  if matched.isEmpty then .error collectionErrMsg else .ok matched

/-- `filterVariableSubsettingMatches` — stage 2. -/
def filterVariableSubsettingMatches (operation : Operation) (_context : RoutingContext)
    (configs : List ServiceConfig) : Except String (List ServiceConfig) :=
  let matched :=
    if requiresVariableSubsetting operation then supportsVariableSubsetting configs
    else configs
  if matched.isEmpty then .error variableErrMsg else .ok matched

/-- The `services` / mutated-operation computation of
`filterOutputFormatMatches`: when a format constraint applies, resolve
the format via `selectFormat`, write a truthy result onto the
operation, and keep the configs supporting it; otherwise pass all
configs through. -/
def formatStageCore (accepts : String → String → Bool) (operation : Operation)
    (context : RoutingContext) (configs : List ServiceConfig) :
    List ServiceConfig × Operation :=
  if truthyStr operation.outputFormat ∨ ¬ context.requestedMimeTypes.isEmpty then
    match selectFormat accepts operation context configs with
    | some f =>
      if f = "" then ([], operation)
      else (selectServicesForFormat accepts f configs,
            { operation with outputFormat := some f })
    | none => ([], operation)
  else (configs, operation)

/-- `filterOutputFormatMatches` — stage 3.  Also returns the (possibly
mutated) operation, since the JS code writes `operation.outputFormat`
as a side effect. -/
def filterOutputFormatMatches (accepts : String → String → Bool) (operation : Operation)
    (context : RoutingContext) (configs : List ServiceConfig) :
    Except String (List ServiceConfig) × Operation :=
  let so := formatStageCore accepts operation context configs
  if so.1.isEmpty then
    (.error (formatErrMsgHead ++ "[" ++ formatsDesc so.2 context ++ "]"), so.2)
  else (.ok so.1, so.2)

/-- Substring search on character lists (JS `String.prototype.includes`). -/
def charsInclude (p : List Char) : List Char → Bool
  | [] => p.isEmpty
  | c :: t => p.isPrefixOf (c :: t) || charsInclude p t

/-- JS `String.prototype.includes`, on the underlying character lists. -/
def strIncludes (s pattern : String) : Bool :=
  charsInclude pattern.data s.data

/-- `unsupportedCombinationMessage` — rewrites a format-stage failure
reason when the combination of variable subsetting and the requested
formats is the root cause.  Its internal `filterCollectionMatches` call
can itself throw, hence the `Except`. -/
def unsupportedCombinationMessage (accepts : String → String → Bool)
    (operation : Operation) (context : RoutingContext) (configs : List ServiceConfig)
    (originalReason : String) : Except String String :=
  if strIncludes originalReason "reformatting to any of the requested formats" then
    if requiresVariableSubsetting operation then
      match filterCollectionMatches operation context configs with
      | .error e => .error e
      | .ok matched =>
        match selectFormat accepts operation context matched with
        | some f =>
          if f = "" then .ok originalReason
          else if (selectServicesForFormat accepts f matched).isEmpty then .ok originalReason
          else .ok (combinationMsgHead ++ "[" ++ formatsDesc operation context ++ "]")
        | none => .ok originalReason
    else .ok originalReason
  else .ok originalReason

/-- The try-block of `forOperation`: the three filtering stages in
order, threading the operation through the mutating format stage. -/
def routeStages (accepts : String → String → Bool) (operation : Operation)
    (context : RoutingContext) (configs : List ServiceConfig) :
    Except String (List ServiceConfig) × Operation :=
  match filterCollectionMatches operation context configs with
  | .error m => (.error m, operation)
  | .ok collectionMatches =>
    match filterVariableSubsettingMatches operation context collectionMatches with
    | .error m => (.error m, operation)
    | .ok varSubsetMatches =>
      filterOutputFormatMatches accepts operation context varSubsetMatches

/-- `forOperation` — the router's `select`.  Returns the selection
result, the (possibly mutated) operation, and the new value of the
module-level `noOpService.message` slot (`noOpMsg` being its value
before the call). -/
def forOperation (accepts : String → String → Bool) (operation : Operation)
    (context : RoutingContext) (configs : List ServiceConfig) (noOpMsg : Option String) :
    Except RouterError Service × Operation × Option String :=
  match routeStages accepts operation context configs with
  | (.ok services, operation') =>
    match services with
    | [] =>
      -- dead code: a successful stage 3 never returns an empty list; in JS
      -- `buildService(undefined, operation)` would throw a `TypeError` here
      (.error (.typeError "Cannot read property 'type' of undefined"), operation', noOpMsg)
    | service :: _ => (buildService service operation', operation', noOpMsg)
  | (.error msg, operation') =>
    match unsupportedCombinationMessage accepts operation' context configs msg with
    | .error e => (.error (.unsupportedOperation e), operation', noOpMsg)
    | .ok message =>
      (buildService { noOpService with message := some message } operation',
       operation', some message)

/-- Modelled from the spec: the external Mime Negotiation collaborator
(`isMimeTypeAccepted`, from `util/content-negotiation`, not under
`src/`): wildcard-aware test of whether a candidate output format
satisfies a requested pattern (`*/*`, `type/*`, or exact match). -/
def isMimeTypeAccepted (candidate pattern : String) : Bool :=
  pattern == "*/*" || candidate == pattern ||
    (match jsSplit '/' pattern with
     | [t, "*"] =>
       match jsSplit '/' candidate with
       | [ct, _] => ct == t
       | _ => false
     | _ => false)

/-! ## Callback handler (`src/app/backends/service-response.ts`) -/

/-- The JS numeric/date built-ins used by `updateJobFields`, kept
abstract: `parseFloat` and `numberCoerce` (the unary `+` / `Number()`
coercion) return `none` for `NaN`; `dateParse` is `Date.parse` (`none`
for an unparsable date); `toISO` is `new Date(t).toISOString()`;
`parseInt10` is `parseInt(s, 10)` (`none` for `NaN`). -/
structure JsPrims where
  parseFloat : String → Option Rat
  numberCoerce : String → Option Rat
  dateParse : String → Option Int
  toISO : Int → String
  parseInt10 : String → Option Int

/-- `item[...]` query fields of a callback (`CallbackQueryItem`); all are
string-valued query parameters that may be absent. -/
structure CallbackQueryItem where
  href : Option String := none
  type : Option String := none
  rel : Option String := none
  title : Option String := none
  temporal : Option String := none
  bbox : Option String := none
  deriving DecidableEq

/-- The parsed callback query (`CallbackQuery`). -/
structure CallbackQuery where
  item : Option CallbackQueryItem := none
  error : Option String := none
  redirect : Option String := none
  status : Option String := none
  progress : Option String := none
  deriving DecidableEq

/-- Job statuses (spec §3): terminal set is
{successful, failed, canceled}. -/
inductive JobStatus where
  | accepted
  | running
  | successful
  | failed
  | canceled
  | paused
  deriving DecidableEq

/-- A stored job link (`JobLink`): `href`/`type`/`rel`/`title` as the
callback delivered them, plus validated `bbox` and canonicalized
`temporal`. -/
structure JobLink where
  href : Option String := none
  type : Option String := none
  rel : Option String := none
  title : Option String := none
  bbox : Option (List Rat) := none
  temporal : Option (String × String) := none
  deriving DecidableEq

/-- Modelled from the spec: the persisted `Job` entity
(`app/models/job`, not under `src/`): `status`, `progress` (an integer;
`none` models the `NaN` a whitespace progress string would store),
`links`, the immutable `isAsync` flag, and the message recorded by
`fail`.  Timestamps are omitted (no claim touches them). -/
structure Job where
  requestId : String
  status : JobStatus
  progress : Option Int := none
  links : List JobLink := []
  isAsync : Bool
  message : Option String := none
  deriving DecidableEq

/-- Modelled from the spec: `Job.addLink` appends the (already
validated) link to the job's ordered `links` sequence. -/
def Job.addLink (job : Job) (link : JobLink) : Job :=
  { job with links := job.links ++ [link] }

/-- Modelled from the spec: `Job.fail` transitions to the terminal
`failed` status and records the message. -/
def Job.fail (job : Job) (msg : String) : Job :=
  { job with status := .failed, message := some msg }

/-- Modelled from the spec: `Job.succeed` transitions to the terminal
`successful` status. -/
def Job.succeed (job : Job) : Job :=
  { job with status := .successful }

/-- The status strings accepted by `updateStatus` (the `JobStatus`
enum). -/
def statusParse : String → Option JobStatus
  | "accepted" => some .accepted
  | "running" => some .running
  | "successful" => some .successful
  | "failed" => some .failed
  | "canceled" => some .canceled
  | "paused" => some .paused
  | _ => none

/-- Modelled from the spec: `Job.updateStatus` transitions to the named
status after validating it against the enum; a bad status value is a
validation fault (spec §7), so the failure is reported like the
`TypeError`s of `updateJobFields` and surfaces as 400. -/
def Job.updateStatus (job : Job) (status : String) : Except String Job :=
  match statusParse status with
  | some st => .ok { job with status := st }
  | none => .error ("Invalid job status " ++ status)

/-- Modelled from the spec: links related to a job by relation, e.g. the
`"s3-access"` staging-location link or the `"data"` result links. -/
def Job.getRelatedLinks (job : Job) (rel : String) : List JobLink :=
  job.links.filter (fun l => l.rel = some rel)

/-- Modelled from the spec: a job is complete when its status is
terminal. -/
def Job.isComplete (job : Job) : Bool :=
  job.status = .successful ∨ job.status = .failed ∨ job.status = .canceled

/-- Errors of the callback path: `validation` is
`RequestValidationError` (HTTP 400), `server` is `ServerError` (500),
`typeError` is an uncaught raw JS `TypeError` reaching the handler's
catch (mapped to 400 by the `instanceof` check). -/
inductive HandlerError where
  | validation (msg : String)
  | server (msg : String)
  | typeError (msg : String)
  deriving DecidableEq

/-- `e.code || (e instanceof TypeError ? 400 : 500)` — the HTTP status
the handler's catch block reports for an error (the error-class codes
are modelled from the spec's §7 taxonomy: validation ⇒ 400,
server ⇒ 500). -/
def statusOf : HandlerError → Nat
  | .validation _ => 400
  | .server _ => 500
  | .typeError _ => 400

/-- The `bbox` validation of `updateJobFields`: a truthy `item.bbox`
must split on commas into exactly 4 float-parsable parts
(`West,South,East,North`). -/
def bboxStep (P : JsPrims) (item : CallbackQueryItem) (link : JobLink) :
    Except String JobLink :=
  match item.bbox with
  | some b =>
    if b = "" then .ok link
    else
      match ((jsSplit ',' b).map P.parseFloat) with
      | [some x0, some x1, some x2, some x3] =>
        .ok { link with bbox := some [x0, x1, x2, x3] }
      | _ => .error
          "Unrecognized bounding box format.  Must be 4 comma-separated floats as West,South,East,North"
  | none => .ok link

/-- The `temporal` validation of `updateJobFields`: a truthy
`item.temporal` must split into exactly 2 parseable timestamps, each
canonicalized via `toISO`. -/
def temporalStep (P : JsPrims) (item : CallbackQueryItem) (link : JobLink) :
    Except String JobLink :=
  match item.temporal with
  | some tp =>
    if tp = "" then .ok link
    else
      match ((jsSplit ',' tp).map P.dateParse) with
      | [some t0, some t1] =>
        .ok { link with temporal := some (P.toISO t0, P.toISO t1) }
      | _ => .error
          "Unrecognized temporal format.  Must be 2 RFC-3339 dates with optional fractional seconds as Start,End"
  | none => .ok link

/-- `link.rel = link.rel || 'data'`. -/
def relStep (link : JobLink) : JobLink :=
  { link with
    rel := some (match link.rel with
                 | some r => if r = "" then "data" else r
                 | none => "data") }

/-- The link construction and validation of `updateJobFields` for a
present `item`: picks `href`/`type`/`rel`/`title`, validates `bbox` and
`temporal`, and defaults `rel` to `"data"`. -/
def buildLink (P : JsPrims) (item : CallbackQueryItem) : Except String JobLink :=
  match bboxStep P item
      { href := item.href, type := item.type, rel := item.rel, title := item.title } with
  | .error m => .error m
  | .ok link1 =>
    match temporalStep P item link1 with
    | .error m => .error m
    | .ok link2 => .ok (relStep link2)

/-- The body of `updateJobFields`'s try block: apply `item`, then
`progress`, then exactly one of `error` / `status` / `redirect`. -/
def updateJobFieldsInner (P : JsPrims) (job : Job) (query : CallbackQuery) :
    Except String Job :=
  match
    (match query.item with
     | some item =>
       match buildLink P item with
       | .error m => Except.error m
       | .ok link => Except.ok (job.addLink link)
     | none => Except.ok job) with
  | .error m => .error m
  | .ok job1 =>
    match
      (match query.progress with
       | some p =>
         if p = "" then Except.ok job1
         else if (P.numberCoerce p).isNone then
           Except.error "Job record is invalid: [\"Job progress must be between 0 and 100\"]"
         else Except.ok { job1 with progress := P.parseInt10 p }
       | none => Except.ok job1) with
    | .error m => .error m
    | .ok job2 =>
      if truthyStr query.error then
        .ok (job2.fail (jsStrOpt query.error))
      else if truthyStr query.status then
        job2.updateStatus (jsStrOpt query.status)
      else if truthyStr query.redirect then
        .ok ((job2.addLink { href := query.redirect, rel := some "data" }).succeed)
      else .ok job2

/-- `updateJobFields` — the try/catch wrapper: every failure of the try
block is a `TypeError` (or the spec-modelled status-validation fault),
so the catch rethrows it as `RequestValidationError`. -/
def updateJobFields (P : JsPrims) (job : Job) (query : CallbackQuery) :
    Except HandlerError Job :=
  match updateJobFieldsInner P job query with
  | .ok j => .ok j
  | .error m => .error (.validation m)

/-- After the literal `filename="`, the regex `([^"]+)"` captures a
non-empty run of non-quote characters closed by a quote. -/
def quotedCapture (cs : List Char) : Option String :=
  let content := cs.takeWhile (fun c => c ≠ '"')
  let rest := cs.dropWhile (fun c => c ≠ '"')
  if content.isEmpty ∨ rest.isEmpty then none else some (String.mk content)

/-- Leftmost match of `/filename="([^"]+)"/`: try each start position in
order, as the JS regex engine does. -/
def matchFilenameAux : List Char → Option String
  | [] => none
  | c :: cs =>
    if ("filename=\"").data.isPrefixOf (c :: cs) then
      match quotedCapture ((c :: cs).drop 10) with
      | some f => some f
      | none => matchFilenameAux cs
    else matchFilenameAux cs

/-- `content-disposition.match(/filename="([^"]+)"/)`'s capture group. -/
def matchFilename (s : String) : Option String :=
  matchFilenameAux s.data

/-- The transport metadata the handler reads: the parsed query and the
`content-length` / `content-type` / `content-disposition` headers. -/
structure ReqMeta where
  query : CallbackQuery
  contentLength : Option String := none
  contentType : Option String := none
  contentDisposition : Option String := none
  deriving DecidableEq

/-- The observable outcome of one callback: HTTP status, whether the
transaction committed, the job state persisted by this call (`none`
when rolled back or not found), and the destinations streamed to the
object store. -/
structure HandlerResult where
  httpStatus : Nat
  committed : Bool
  persistedJob : Option Job
  uploads : List String
  deriving DecidableEq

/-- `!query.item?.href && !query.error && req.headers['content-length']
&& req.headers['content-length'] !== '0'` — the body is a file result
to stage. -/
def bodyIsFileResult (req : ReqMeta) : Bool :=
  !truthyStr (req.query.item.bind (fun i => i.href)) &&
  !truthyStr req.query.error &&
  truthyStr req.contentLength &&
  !(req.contentLength == some "0")

/-- Filename derivation: `item[title]`, overridden by a
`content-disposition` header's `filename="..."` capture when the header
is truthy and the pattern matches. -/
def deriveFilename (req : ReqMeta) : Option String :=
  let base := req.query.item.bind (fun i => i.title)
  match req.contentDisposition with
  | some cd =>
    if cd = "" then base
    else
      match matchFilename cd with
      | some f => some f
      | none => base
  | none => base

/-- Error message for an unresolvable filename. -/
def filenameErrMsg : String :=
  "Services providing output via POST body must send a filename via a \"Content-Disposition\" header or \"item[title]\" query parameter"

/-- `item.type` from the `content-type` header, unless it is absent,
empty, or the default form-encoded type. -/
def contentTypeOf (ct : Option String) : Option String :=
  match ct with
  | some c => if c ≠ "" ∧ c ≠ "application/x-www-form-urlencoded" then some c else none
  | none => none

/-- The body-staging step of `responseHandler`: when the callback body
is a file result, look up the job's first `s3-access` link (a missing
link makes `[0].href` a JS `TypeError`), derive `item.type` and the
filename, upload to `stagingLocation + filename` (the object-store
collaborator is modelled as always succeeding), and produce the query
overrides (`item`, plus `status = "successful"` for a synchronous job)
together with the performed upload destinations. -/
def stagingAttempt (_P : JsPrims) (job : Job) (req : ReqMeta) :
    Except HandlerError (CallbackQuery × List String) :=
  if bodyIsFileResult req then
    match (job.getRelatedLinks "s3-access").head? with
    | none => .error (.typeError "Cannot read property 'href' of undefined")
    | some l =>
      let stagingLocation := jsStrOpt l.href
      let itype : Option String := contentTypeOf req.contentType
      match deriveFilename req with
      | some fn =>
        if fn = "" then .error (.typeError filenameErrMsg)
        else
          let href := stagingLocation ++ fn
          .ok ({ item := some { href := some href, type := itype }
                 status := if job.isAsync then none else some "successful" }, [href])
      | none => .error (.typeError filenameErrMsg)
  else .ok ({}, [])

/-- Lodash `_.merge` on two possibly-absent `item` objects: fields of
the override win when defined. -/
def mergeItem : Option CallbackQueryItem → Option CallbackQueryItem → Option CallbackQueryItem
  | none, none => none
  | some a, none => some a
  | none, some b => some b
  | some a, some b =>
    some { href := b.href <|> a.href
           type := b.type <|> a.type
           rel := b.rel <|> a.rel
           title := b.title <|> a.title
           temporal := b.temporal <|> a.temporal
           bbox := b.bbox <|> a.bbox }

/-- `_.merge({}, query, queryOverrides)` — overrides win where
defined. -/
def mergeQuery (query overrides : CallbackQuery) : CallbackQuery :=
  { item := mergeItem query.item overrides.item
    error := overrides.error <|> query.error
    redirect := overrides.redirect <|> query.redirect
    status := overrides.status <|> query.status
    progress := overrides.progress <|> query.progress }

/-- `responseHandler` — one inbound callback: `lookup` is the result of
`Job.byRequestId` inside the opened transaction.  Unknown job ⇒ roll
back and 404; otherwise stage a file body if present, merge the
overrides, apply `updateJobFields`, and commit (200) or roll back
(status from the error). -/
def responseHandler (P : JsPrims) (lookup : Option Job) (req : ReqMeta) : HandlerResult :=
  match lookup with
  | none => { httpStatus := 404, committed := false, persistedJob := none, uploads := [] }
  | some job =>
    match stagingAttempt P job req with
    | .error e =>
      { httpStatus := statusOf e, committed := false, persistedJob := none, uploads := [] }
    | .ok (overrides, uploads) =>
      let fields := mergeQuery req.query overrides
      match updateJobFields P job fields with
      | .error e =>
        { httpStatus := statusOf e, committed := false, persistedJob := none, uploads := uploads }
      | .ok job' =>
        { httpStatus := 200, committed := true, persistedJob := some job', uploads := uploads }

/-! ## Spec-side reference definitions

These follow the specification's words, for comparison against the
embedded code. -/

/-- The spec's format scan, in its words: take the first requested
pattern whose subset of descriptors (those with an entry accepted by
the pattern) is non-empty, and within it the first matching format
entry of the first surviving descriptor. -/
def specScanList (accepts : String → String → Bool) (configs : List ServiceConfig) :
    List String → Option String
  | [] => none
  | mimeType :: rest =>
    match selectServicesForFormat accepts mimeType configs with
    | [] => specScanList accepts configs rest
    | s :: _ => s.outputFormats.find? (fun f => accepts f mimeType)

/-- The spec's scan applied to the context's requested MIME types. -/
def specScanFormat (accepts : String → String → Bool) (context : RoutingContext)
    (configs : List ServiceConfig) : Option String :=
  specScanList accepts configs context.requestedMimeTypes

/-- The resolved output format per the code's actual behavior: a truthy
preexisting `operation.outputFormat` is kept as-is, scanning happens
only otherwise. -/
def resolvedFormatSpec (accepts : String → String → Bool) (operation : Operation)
    (context : RoutingContext) (configs : List ServiceConfig) : Option String :=
  if truthyStr operation.outputFormat then operation.outputFormat
  else specScanFormat accepts context configs

/-- The spec's combination diagnosis, in its words: re-run the
collection stage and the format-stage resolution over the full
descriptor list while ignoring the variable-subsetting constraint, and
collect the services that would have matched. -/
def rerunIgnoringSubsetting (accepts : String → String → Bool) (operation : Operation)
    (context : RoutingContext) (configs : List ServiceConfig) : List ServiceConfig :=
  match filterCollectionMatches operation context configs with
  | .error _ => []
  | .ok matched =>
    match selectFormat accepts operation context matched with
    | some f => if f = "" then [] else selectServicesForFormat accepts f matched
    | none => []

/-! ## Concrete instances for counterexamples and witnesses -/

/-- Parses a non-empty all-digit decimal string. -/
def decNat? (s : String) : Option Nat :=
  if s.data ≠ [] ∧ s.data.all Char.isDigit then
    some (s.data.foldl (fun n c => 10 * n + (c.toNat - 48)) 0)
  else none

/-- A concrete instantiation of the JS numeric/date built-ins; it agrees
with them on the decimal-digit strings used in the concrete evaluations
below (`Number("150") = parseInt("150", 10) = 150`, etc.). -/
def decPrims : JsPrims :=
  { parseFloat := fun s => (decNat? s).map (fun n => (n : Rat))
    numberCoerce := fun s => (decNat? s).map (fun n => (n : Rat))
    dateParse := fun s => (decNat? s).map Int.ofNat
    toISO := fun t => "iso:" ++ toString t
    parseInt10 := fun s => (decNat? s).map Int.ofNat }

/-- An operation on collection `C1` with a preexisting output format. -/
def c1CexOp : Operation :=
  { sources := [{ collection := "C1", variableIds := [] }], outputFormat := some "image/png" }

/-- An empty routing context. -/
def c1CexCtx : RoutingContext := { requestedMimeTypes := [] }

/-- The no-op fallback selection produced for `c1CexOp` against an empty
registry. -/
def c1CexService : Service :=
  { kind := .noOp
    config := { noOpService with message := some collectionErrMsg }
    operation := c1CexOp }

/-- Witness inputs for the amended C1 statement: a service supporting
the requested format. -/
def c1WitCfg : ServiceConfig :=
  { typeName := "http", collections := ["C1"], outputFormats := ["image/png"],
    variableSubsetting := false }

/-- The service built for the C1 witness registry. -/
def c1WitService : Service :=
  { kind := .http, config := c1WitCfg, operation := c1CexOp }

/-- Witness inputs for C2: a registry whose only entry has an unknown
backend kind. -/
def c2WitCfg : ServiceConfig :=
  { typeName := "bogus", collections := ["C1"], outputFormats := [],
    variableSubsetting := false }

/-- A plain operation on collection `C1`, no format, no variables. -/
def c2WitOp : Operation :=
  { sources := [{ collection := "C1", variableIds := [] }], outputFormat := none }

/-- C3 counterexample: the operation arrives with `image/png` set. -/
def c3CexOp : Operation :=
  { sources := [{ collection := "C1", variableIds := [] }], outputFormat := some "image/png" }

/-- C3 counterexample: the context requests `application/json`. -/
def c3CexCtx : RoutingContext := { requestedMimeTypes := ["application/json"] }

/-- C3 counterexample: the lone descriptor offers `application/json`. -/
def c3CexCfg : ServiceConfig :=
  { typeName := "http", collections := ["C1"], outputFormats := ["application/json"],
    variableSubsetting := false }

/-- C3 witness: an operation with no preexisting format. -/
def c3WitOp : Operation :=
  { sources := [{ collection := "C1", variableIds := [] }], outputFormat := none }

/-- C4 witness: a variable-subsetting service that cannot reformat to
`image/png`. -/
def c4WitCfgVar : ServiceConfig :=
  { typeName := "docker", collections := ["C1"], outputFormats := ["application/x-zarr"],
    variableSubsetting := true }

/-- C4 witness: a `image/png`-capable service without variable
subsetting. -/
def c4WitCfgPng : ServiceConfig :=
  { typeName := "http", collections := ["C1"], outputFormats := ["image/png"],
    variableSubsetting := false }

/-- C4 witness: an operation requiring variable subsetting and
`image/png` output. -/
def c4WitOp : Operation :=
  { sources := [{ collection := "C1", variableIds := ["v1"] }], outputFormat := some "image/png" }

/-- C5 counterexample: an operation routed against an empty registry. -/
def c5CexOp : Operation :=
  { sources := [{ collection := "C1", variableIds := [] }], outputFormat := none }

/-- C6 witness: the job's staging-location link. -/
def c6WitLink : JobLink := { href := some "s3://bucket/public/stage/", rel := some "s3-access" }

/-- C6 witness: a synchronous running job holding a staging link. -/
def c6WitJob : Job :=
  { requestId := "req-6", status := .running, progress := some 0,
    links := [c6WitLink], isAsync := false }

/-- C6 witness: a callback query carrying only an `item[title]`. -/
def c6WitQuery : CallbackQuery := { item := some { title := some "out.nc" } }

/-- C7 witness request metadata. -/
def c7WitReq : ReqMeta := { query := {} }

/-- C8 witness item: a valid 4-float bbox. -/
def c8WitItem : CallbackQueryItem := { bbox := some "10,20,30,40" }

/-- C8 witness job. -/
def c8WitJob : Job := { requestId := "req-8", status := .running, isAsync := true }

/-- C9 counterexample job: a running job with in-range progress. -/
def c9CexJob : Job :=
  { requestId := "req-9", status := .running, progress := some 0, isAsync := true }

/-- C9 counterexample query: an out-of-range numeric progress. -/
def c9CexQuery : CallbackQuery := { progress := some "150" }

/-- C9 witness query: an in-range numeric progress. -/
def c9WitQuery : CallbackQuery := { progress := some "50" }

/-- C10 witness: a synchronous job with no links at all. -/
def c10WitJob : Job := { requestId := "req-10", status := .running, links := [], isAsync := false }

/-- C10 witness: a body-bearing request (no `item[href]`, no `error`,
non-zero declared length). -/
def c10WitReq : ReqMeta := { query := {}, contentLength := some "42" }

/-- The spec's "splits into exactly 4 float-parsable parts": the parsed
quad when so, `none` otherwise. -/
def parsesToQuad (l : List (Option Rat)) : Option (List Rat) :=
  match l with
  | [some x0, some x1, some x2, some x3] => some [x0, x1, x2, x3]
  | _ => none

/-- The spec's "parses to exactly 2 timestamps". -/
def parsesToPair (l : List (Option Int)) : Option (Int × Int) :=
  match l with
  | [some t0, some t1] => some (t0, t1)
  | _ => none

/-- Request metadata for a body-bearing callback with a declared
content length, no content-disposition header. -/
def reqOf (q : CallbackQuery) (ct : Option String) (cl : String) : ReqMeta :=
  { query := q, contentLength := some cl, contentType := ct, contentDisposition := none }

/-! ## Helper lemmas -/

@[simp] theorem truthyStr_none : truthyStr none = false := rfl

theorem truthyStr_some_iff {s : String} : truthyStr (some s) = true ↔ s ≠ "" := by
  simp [truthyStr]

theorem truthyStr_eq_false_iff {o : Option String} :
    truthyStr o = false ↔ o = none ∨ o = some "" := by
  cases o with
  | none => simp
  | some s =>
    simp only [truthyStr, decide_eq_false_iff_not, not_not]
    constructor
    · intro h; exact Or.inr (by rw [h])
    · rintro (h | h) <;> simp_all

/-- A truthy `find?` result: the found entry is a non-empty member
satisfying the predicate. -/
theorem truthy_find?_elim {p : String → Bool} {l : List String}
    (h : truthyStr (l.find? p) = true) :
    ∃ g, l.find? p = some g ∧ g ≠ "" ∧ p g = true ∧ g ∈ l := by
  cases hf : l.find? p with
  | none => rw [hf] at h; exact absurd h (by simp)
  | some g =>
    rw [hf] at h
    exact ⟨g, rfl, truthyStr_some_iff.mp h, List.find?_some hf, List.mem_of_find?_eq_some hf⟩

/-- The head of a `selectServicesForFormat` result has a truthy
matching entry for the format. -/
theorem selectServices_head_truthy {accepts : String → String → Bool} {format : String}
    {configs : List ServiceConfig} {s : ServiceConfig} {t : List ServiceConfig}
    (h : selectServicesForFormat accepts format configs = s :: t) :
    truthyStr (s.outputFormats.find? (fun f => accepts f format)) = true := by
  have hs : s ∈ selectServicesForFormat accepts format configs := by
    rw [h]; exact List.mem_cons_self _ _
  exact (List.mem_filter.mp hs).2

/-- Hence the head supports the format via a concrete non-empty entry. -/
theorem selectServices_head_accepted {accepts : String → String → Bool} {format : String}
    {configs : List ServiceConfig} {s : ServiceConfig} {t : List ServiceConfig}
    (h : selectServicesForFormat accepts format configs = s :: t) :
    ∃ g, g ∈ s.outputFormats ∧ accepts g format = true ∧ g ≠ "" := by
  obtain ⟨g, _, hne, hp, hmem⟩ := truthy_find?_elim (selectServices_head_truthy h)
  exact ⟨g, hmem, hp, hne⟩

theorem isPrefixOf_append_right {p a b : List Char} (h : p.isPrefixOf a = true) :
    p.isPrefixOf (a ++ b) = true := by
  induction p generalizing a with
  | nil => simp [List.isPrefixOf]
  | cons c cs ih =>
    cases a with
    | nil => simp [List.isPrefixOf] at h
    | cons x xs =>
      simp only [List.isPrefixOf, Bool.and_eq_true] at h
      simp only [List.cons_append, List.isPrefixOf, Bool.and_eq_true]
      exact ⟨h.1, ih h.2⟩

theorem charsInclude_nil_left (l : List Char) : charsInclude [] l = true := by
  cases l <;> simp [charsInclude, List.isPrefixOf]

theorem charsInclude_append_right {p a : List Char} (b : List Char)
    (h : charsInclude p a = true) : charsInclude p (a ++ b) = true := by
  induction a with
  | nil =>
    simp only [charsInclude, List.isEmpty_iff] at h
    subst h
    exact charsInclude_nil_left b
  | cons c cs ih =>
    simp only [charsInclude, Bool.or_eq_true] at h
    rcases h with h | h
    · simp only [List.cons_append, charsInclude, Bool.or_eq_true]
      exact Or.inl (isPrefixOf_append_right h)
    · simp only [List.cons_append, charsInclude, Bool.or_eq_true]
      exact Or.inr (ih h)

/-- A message beginning with the fixed stage-3 head always contains the
marker substring tested by `unsupportedCombinationMessage`. -/
theorem strIncludes_formatErr (s : String) :
    strIncludes (formatErrMsgHead ++ s)
      "reformatting to any of the requested formats" = true := by
  have hbase : charsInclude
      ("reformatting to any of the requested formats").data formatErrMsgHead.data = true := by
    decide
  have hdata : (formatErrMsgHead ++ s).data = formatErrMsgHead.data ++ s.data :=
    String.data_append _ _
  unfold strIncludes
  rw [hdata]
  exact charsInclude_append_right _ hbase

theorem strIncludes_collectionErr :
    strIncludes collectionErrMsg "reformatting to any of the requested formats" = false := by
  decide

theorem strIncludes_variableErr :
    strIncludes variableErrMsg "reformatting to any of the requested formats" = false := by
  decide

theorem formatStageCore_sources (a : String → String → Bool) (op : Operation)
    (ctx : RoutingContext) (cfgs : List ServiceConfig) :
    ((formatStageCore a op ctx cfgs).2).sources = op.sources := by
  unfold formatStageCore
  repeat' split
  all_goals rfl

/-- Branch characterization of `formatStageCore`. -/
theorem formatStageCore_cases (a : String → String → Bool) (op : Operation)
    (ctx : RoutingContext) (cfgs : List ServiceConfig) :
    (formatStageCore a op ctx cfgs = (cfgs, op) ∧ truthyStr op.outputFormat = false ∧
       ctx.requestedMimeTypes.isEmpty = true) ∨
    (∃ f, selectFormat a op ctx cfgs = some f ∧ f ≠ "" ∧
       formatStageCore a op ctx cfgs =
         (selectServicesForFormat a f cfgs, { op with outputFormat := some f })) ∨
    (formatStageCore a op ctx cfgs = ([], op) ∧
       truthyStr (selectFormat a op ctx cfgs) = false) := by
  unfold formatStageCore
  by_cases hcond : truthyStr op.outputFormat = true ∨ ¬ ctx.requestedMimeTypes.isEmpty = true
  · rw [if_pos hcond]
    cases hsf : selectFormat a op ctx cfgs with
    | none => exact Or.inr (Or.inr ⟨rfl, rfl⟩)
    | some f =>
      by_cases hf : f = ""
      · subst hf
        exact Or.inr (Or.inr ⟨by simp, by decide⟩)
      · exact Or.inr (Or.inl ⟨f, rfl, hf, by simp [hf]⟩)
  · rw [if_neg hcond]
    push_neg at hcond
    refine Or.inl ⟨rfl, ?_, hcond.2⟩
    simpa using hcond.1

theorem fOFM_eq (a : String → String → Bool) (op : Operation)
    (ctx : RoutingContext) (cfgs : List ServiceConfig) :
    filterOutputFormatMatches a op ctx cfgs =
      (if (formatStageCore a op ctx cfgs).1.isEmpty then
         (.error (formatErrMsgHead ++ "[" ++
            formatsDesc (formatStageCore a op ctx cfgs).2 ctx ++ "]"),
          (formatStageCore a op ctx cfgs).2)
       else (.ok (formatStageCore a op ctx cfgs).1, (formatStageCore a op ctx cfgs).2)) := rfl

theorem fOFM_snd (a : String → String → Bool) (op : Operation)
    (ctx : RoutingContext) (cfgs : List ServiceConfig) :
    (filterOutputFormatMatches a op ctx cfgs).2 = (formatStageCore a op ctx cfgs).2 := by
  rw [fOFM_eq]
  split <;> rfl

theorem fOFM_sources (a : String → String → Bool) (op : Operation)
    (ctx : RoutingContext) (cfgs : List ServiceConfig) :
    ((filterOutputFormatMatches a op ctx cfgs).2).sources = op.sources := by
  rw [fOFM_snd]
  exact formatStageCore_sources a op ctx cfgs

theorem fOFM_error_shape {a : String → String → Bool} {op : Operation}
    {ctx : RoutingContext} {cfgs : List ServiceConfig} {msg : String} {op' : Operation}
    (h : filterOutputFormatMatches a op ctx cfgs = (.error msg, op')) :
    msg = formatErrMsgHead ++ "[" ++ formatsDesc op' ctx ++ "]" := by
  rw [fOFM_eq] at h
  split at h
  · injection h with h1 h2
    injection h1 with h1
    rw [← h1, h2]
  · injection h with h1 h2
    cases h1

theorem fOFM_ok_core {a : String → String → Bool} {op : Operation}
    {ctx : RoutingContext} {cfgs : List ServiceConfig} {services : List ServiceConfig}
    {op' : Operation}
    (h : filterOutputFormatMatches a op ctx cfgs = (.ok services, op')) :
    services = (formatStageCore a op ctx cfgs).1 ∧
    op' = (formatStageCore a op ctx cfgs).2 ∧ services.isEmpty = false := by
  rw [fOFM_eq] at h
  split at h
  · injection h with h1 h2
    cases h1
  · rename_i hne
    injection h with h1 h2
    injection h1 with h1
    refine ⟨h1.symm, h2.symm, ?_⟩
    rw [← h1]
    exact Bool.of_not_eq_true hne

/-- If stage 3 succeeds and left the operation with a truthy output
format, the head surviving descriptor supports that format. -/
theorem fOFM_ok_accepted {a : String → String → Bool} {op : Operation}
    {ctx : RoutingContext} {cfgs : List ServiceConfig} {s : ServiceConfig}
    {t : List ServiceConfig} {op' : Operation}
    (h : filterOutputFormatMatches a op ctx cfgs = (.ok (s :: t), op'))
    (htr : truthyStr op'.outputFormat = true) :
    ∃ f g, op'.outputFormat = some f ∧ g ∈ s.outputFormats ∧ a g f = true := by
  obtain ⟨hserv, hop, _⟩ := fOFM_ok_core h
  rcases formatStageCore_cases a op ctx cfgs with
    ⟨hc, hfalse, _⟩ | ⟨f, _, _, hc⟩ | ⟨hc, _⟩
  · rw [hc] at hop hserv
    rw [hop] at htr
    rw [hfalse] at htr
    cases htr
  · rw [hc] at hop hserv
    obtain ⟨g, hmem, hacc, _⟩ := selectServices_head_accepted hserv.symm
    exact ⟨f, g, by rw [hop], hmem, hacc⟩
  · rw [hc] at hserv
    cases hserv

theorem isCollectionMatch_congr {op op2 : Operation} (h : op.sources = op2.sources)
    (cfg : ServiceConfig) : isCollectionMatch op cfg = isCollectionMatch op2 cfg := by
  unfold isCollectionMatch
  rw [h]

theorem filterCollectionMatches_congr {op op2 : Operation} (h : op.sources = op2.sources)
    (ctx ctx2 : RoutingContext) (cfgs : List ServiceConfig) :
    filterCollectionMatches op ctx cfgs = filterCollectionMatches op2 ctx2 cfgs := by
  unfold filterCollectionMatches
  have hfun : (fun config => isCollectionMatch op config) =
      (fun config => isCollectionMatch op2 config) :=
    funext (fun c => isCollectionMatch_congr h c)
  rw [hfun]

theorem requiresVariableSubsetting_congr {op op2 : Operation} (h : op.sources = op2.sources) :
    requiresVariableSubsetting op = requiresVariableSubsetting op2 := by
  unfold requiresVariableSubsetting
  rw [h]

theorem filterCollectionMatches_error {op : Operation} {ctx : RoutingContext}
    {cfgs : List ServiceConfig} {m : String}
    (h : filterCollectionMatches op ctx cfgs = .error m) : m = collectionErrMsg := by
  simp only [filterCollectionMatches] at h
  split at h
  · injection h with h1
    exact h1.symm
  · cases h

theorem filterVariableSubsettingMatches_error {op : Operation} {ctx : RoutingContext}
    {cfgs : List ServiceConfig} {m : String}
    (h : filterVariableSubsettingMatches op ctx cfgs = .error m) : m = variableErrMsg := by
  simp only [filterVariableSubsettingMatches] at h
  split at h <;> split at h <;>
    first
      | (injection h with h1; exact h1.symm)
      | cases h

theorem filterCollectionMatches_ok_subset {op : Operation} {ctx : RoutingContext}
    {cfgs m1 : List ServiceConfig}
    (h : filterCollectionMatches op ctx cfgs = .ok m1) : m1 ⊆ cfgs := by
  simp only [filterCollectionMatches] at h
  split at h
  · cases h
  · injection h with h1
    rw [← h1]
    exact List.filter_subset' cfgs

theorem filterVariableSubsettingMatches_ok_subset {op : Operation} {ctx : RoutingContext}
    {cfgs m2 : List ServiceConfig}
    (h : filterVariableSubsettingMatches op ctx cfgs = .ok m2) : m2 ⊆ cfgs := by
  simp only [filterVariableSubsettingMatches, supportsVariableSubsetting] at h
  split at h <;> split at h <;> cases h <;>
    first | exact List.filter_subset' cfgs | exact fun x hx => hx

theorem formatStageCore_subset (a : String → String → Bool) (op : Operation)
    (ctx : RoutingContext) (cfgs : List ServiceConfig) :
    (formatStageCore a op ctx cfgs).1 ⊆ cfgs := by
  rcases formatStageCore_cases a op ctx cfgs with ⟨hc, _, _⟩ | ⟨f, _, _, hc⟩ | ⟨hc, _⟩
  · rw [hc]
    exact fun x hx => hx
  · rw [hc]
    exact List.filter_subset' cfgs
  · rw [hc]
    exact List.nil_subset cfgs

theorem specScanList_some_ne {a : String → String → Bool} {cfgs : List ServiceConfig}
    {mimes : List String} {f : String}
    (h : specScanList a cfgs mimes = some f) : f ≠ "" := by
  induction mimes with
  | nil => simp [specScanList] at h
  | cons m rest ih =>
    rw [specScanList] at h
    cases hs : selectServicesForFormat a m cfgs with
    | nil =>
      rw [hs] at h
      exact ih h
    | cons s t =>
      rw [hs] at h
      have h' : s.outputFormats.find? (fun f => a f m) = some f := h
      obtain ⟨g, hfind, hg, _, _⟩ := truthy_find?_elim (selectServices_head_truthy hs)
      rw [hfind] at h'
      injection h' with h1
      rw [← h1]
      exact hg

/-- The code's scan loop agrees with the spec's scan whenever the
carried initial value is falsy: a successful spec scan is returned
verbatim, and a failed one leaves the loop result falsy. -/
theorem selectFormatLoop_spec (a : String → String → Bool) (cfgs : List ServiceConfig) :
    ∀ (mimes : List String) (init : Option String), truthyStr init = false →
    (∀ f, specScanList a cfgs mimes = some f → selectFormatLoop a cfgs init mimes = some f) ∧
    (specScanList a cfgs mimes = none → truthyStr (selectFormatLoop a cfgs init mimes) = false) := by
  intro mimes
  induction mimes with
  | nil =>
    intro init hinit
    refine ⟨fun f hf => by simp [specScanList] at hf, fun _ => ?_⟩
    simpa [selectFormatLoop] using hinit
  | cons m rest ih =>
    intro init hinit
    cases hs : selectServicesForFormat a m cfgs with
    | nil =>
      have hscan : specScanList a cfgs (m :: rest) = specScanList a cfgs rest := by
        rw [specScanList, hs]
      have hloop : selectFormatLoop a cfgs init (m :: rest) =
          selectFormatLoop a cfgs init rest := by
        rw [selectFormatLoop]
        simp only [hs, hinit]
        rw [if_neg Bool.false_ne_true]
      rw [hscan, hloop]
      exact ih init hinit
    | cons s t =>
      obtain ⟨g, hfind, hg, _, _⟩ := truthy_find?_elim (selectServices_head_truthy hs)
      have hscan : specScanList a cfgs (m :: rest) = some g := by
        rw [specScanList, hs]
        exact hfind
      have hloop : selectFormatLoop a cfgs init (m :: rest) = some g := by
        rw [selectFormatLoop]
        simp only [hs]
        rw [hfind, if_pos (truthyStr_some_iff.mpr hg)]
      refine ⟨fun f hf => ?_, fun hnone => ?_⟩
      · rw [hscan] at hf
        injection hf with h1
        rw [hloop, h1]
      · rw [hscan] at hnone
        cases hnone

/-- Decomposition of a `routeStages` failure into the stage at fault. -/
theorem routeStages_cases {a : String → String → Bool} {op : Operation}
    {ctx : RoutingContext} {cfgs : List ServiceConfig} {msg : String} {op' : Operation}
    (h : routeStages a op ctx cfgs = (.error msg, op')) :
    ((msg = collectionErrMsg ∨ msg = variableErrMsg) ∧ op' = op) ∨
    (∃ m1 m2, filterCollectionMatches op ctx cfgs = .ok m1 ∧
       filterVariableSubsettingMatches op ctx m1 = .ok m2 ∧
       filterOutputFormatMatches a op ctx m2 = (.error msg, op') ∧
       msg = formatErrMsgHead ++ "[" ++ formatsDesc op' ctx ++ "]") := by
  unfold routeStages at h
  split at h
  · rename_i m heq
    injection h with he hop
    injection he with he
    refine Or.inl ⟨Or.inl ?_, hop.symm⟩
    rw [← he]
    exact filterCollectionMatches_error heq
  · rename_i m1 heq1
    split at h
    · rename_i m heq2
      injection h with he hop
      injection he with he
      refine Or.inl ⟨Or.inr ?_, hop.symm⟩
      rw [← he]
      exact filterVariableSubsettingMatches_error heq2
    · rename_i m2 heq2
      exact Or.inr ⟨m1, m2, heq1, heq2, h, fOFM_error_shape h⟩

theorem routeStages_sources (a : String → String → Bool) (op : Operation)
    (ctx : RoutingContext) (cfgs : List ServiceConfig) :
    ((routeStages a op ctx cfgs).2).sources = op.sources := by
  unfold routeStages
  split
  · rfl
  · split
    · rfl
    · exact fOFM_sources a op ctx _

/-- A successful `routeStages` run yields a non-empty list of services
drawn from the given configs. -/
theorem routeStages_ok {a : String → String → Bool} {op : Operation}
    {ctx : RoutingContext} {cfgs services : List ServiceConfig} {op' : Operation}
    (h : routeStages a op ctx cfgs = (.ok services, op')) :
    services.isEmpty = false ∧ services ⊆ cfgs := by
  unfold routeStages at h
  split at h
  · rename_i m heq
    injection h with he
    cases he
  · rename_i m1 heq1
    split at h
    · rename_i m heq2
      injection h with he
      cases he
    · rename_i m2 heq2
      obtain ⟨hserv, _, hne⟩ := fOFM_ok_core h
      refine ⟨hne, ?_⟩
      rw [hserv]
      exact fun x hx =>
        filterCollectionMatches_ok_subset heq1
          (filterVariableSubsettingMatches_ok_subset heq2 (formatStageCore_subset a op ctx m2 hx))

/-- Every branch of the inner combination diagnosis returns `.ok`. -/
theorem combinationInner_isOk (a : String → String → Bool) (op' : Operation)
    (ctx : RoutingContext) (m1 : List ServiceConfig) (msg : String) :
    ∃ r, (match selectFormat a op' ctx m1 with
          | some f =>
            if f = "" then (Except.ok msg : Except String String)
            else if (selectServicesForFormat a f m1).isEmpty then .ok msg
            else .ok (combinationMsgHead ++ "[" ++ formatsDesc op' ctx ++ "]")
          | none => .ok msg) = .ok r := by
  cases hsf : selectFormat a op' ctx m1 with
  | none => exact ⟨msg, rfl⟩
  | some f =>
    dsimp only
    by_cases hf : f = ""
    · subst hf
      exact ⟨msg, by rw [if_pos rfl]⟩
    · rw [if_neg hf]
      by_cases hse : (selectServicesForFormat a f m1).isEmpty = true
      · rw [if_pos hse]
        exact ⟨msg, rfl⟩
      · rw [if_neg hse]
        exact ⟨_, rfl⟩

/-- On any failure path, the combination diagnosis itself cannot throw:
stage-1/2 messages lack the marker substring, and after a stage-3
failure the collection stage is known to succeed again. -/
theorem combination_isOk {a : String → String → Bool} {op : Operation}
    {ctx : RoutingContext} {cfgs : List ServiceConfig} {msg : String} {op' : Operation}
    (h : routeStages a op ctx cfgs = (.error msg, op')) :
    ∃ r, unsupportedCombinationMessage a op' ctx cfgs msg = .ok r := by
  rcases routeStages_cases h with ⟨hmsg, hop⟩ | ⟨m1, m2, h1, h2, h3, hshape⟩
  · subst hop
    unfold unsupportedCombinationMessage
    rcases hmsg with rfl | rfl
    · rw [strIncludes_collectionErr, if_neg Bool.false_ne_true]
      exact ⟨collectionErrMsg, rfl⟩
    · rw [strIncludes_variableErr, if_neg Bool.false_ne_true]
      exact ⟨variableErrMsg, rfl⟩
  · have hsrc : op'.sources = op.sources := by
      have hh := routeStages_sources a op ctx cfgs
      rw [h] at hh
      exact hh
    have hinc : strIncludes msg "reformatting to any of the requested formats" = true := by
      rw [hshape, String.append_assoc, String.append_assoc]
      exact strIncludes_formatErr _
    unfold unsupportedCombinationMessage
    rw [hinc, if_pos rfl]
    by_cases hreq : requiresVariableSubsetting op' = true
    · rw [if_pos hreq, filterCollectionMatches_congr hsrc ctx ctx cfgs, h1]
      exact combinationInner_isOk a op' ctx m1 msg
    · rw [if_neg hreq]
      exact ⟨msg, rfl⟩

theorem forOperation_ok_cons_eq {a : String → String → Bool} {op : Operation}
    {ctx : RoutingContext} {cfgs : List ServiceConfig} {s : ServiceConfig}
    {t : List ServiceConfig} {op' : Operation} (m0 : Option String)
    (h : routeStages a op ctx cfgs = (.ok (s :: t), op')) :
    forOperation a op ctx cfgs m0 = (buildService s op', op', m0) := by
  unfold forOperation
  rw [h]

theorem forOperation_fallback_eq {a : String → String → Bool} {op : Operation}
    {ctx : RoutingContext} {cfgs : List ServiceConfig} {msg r : String} {op' : Operation}
    (m0 : Option String)
    (h : routeStages a op ctx cfgs = (.error msg, op'))
    (hc : unsupportedCombinationMessage a op' ctx cfgs msg = .ok r) :
    forOperation a op ctx cfgs m0 =
      (buildService { noOpService with message := some r } op', op', some r) := by
  unfold forOperation
  rw [h]
  show (match unsupportedCombinationMessage a op' ctx cfgs msg with
        | Except.error e =>
          ((Except.error (RouterError.unsupportedOperation e) : Except RouterError Service),
           op', m0)
        | Except.ok message =>
          (buildService { noOpService with message := some message } op', op', some message)) =
      (buildService { noOpService with message := some r } op', op', some r)
  rw [hc]

/-- Claim C2: `select` (`forOperation`) never propagates the
`UnsupportedOperation` stage-failure signal to its caller — every stage
failure is converted into a no-op selection carrying a diagnostic
message, and the only raisable error is the adapter factory's
`NotFoundError` for a selected descriptor whose kind is not in the
closed map {docker, http, noOp}. -/
theorem c2_select_error_contract (a : String → String → Bool) (op : Operation)
    (ctx : RoutingContext) (cfgs : List ServiceConfig) (m0 : Option String) :
    (∀ m, (forOperation a op ctx cfgs m0).1 ≠ .error (.unsupportedOperation m) ∧
          (forOperation a op ctx cfgs m0).1 ≠ .error (.typeError m)) ∧
    (∀ e, (forOperation a op ctx cfgs m0).1 = .error e →
       ∃ m cfg, e = .notFound m ∧ cfg ∈ cfgs ∧
         serviceTypesToServiceClasses cfg.typeName = none) ∧
    (∀ msg op', routeStages a op ctx cfgs = (.error msg, op') →
       ∃ m, (forOperation a op ctx cfgs m0).1 =
         .ok { kind := .noOp, config := { noOpService with message := some m },
               operation := op' }) := by
  rcases hres : routeStages a op ctx cfgs with ⟨res, opr⟩
  cases res with
  | error msg =>
    obtain ⟨r, hr⟩ := combination_isOk hres
    have hfo := forOperation_fallback_eq m0 hres hr
    have h1 : (forOperation a op ctx cfgs m0).1 =
        .ok { kind := .noOp, config := { noOpService with message := some r },
              operation := opr } := by
      rw [hfo]
      rfl
    refine ⟨fun m => ⟨fun hcon => ?_, fun hcon => ?_⟩, fun e he => ?_, fun msg2 op2 h2 => ?_⟩
    · rw [h1] at hcon
      cases hcon
    · rw [h1] at hcon
      cases hcon
    · rw [h1] at he
      cases he
    · injection h2 with he hop
      injection he with he
      subst hop
      subst he
      exact ⟨r, h1⟩
  | ok services =>
    obtain ⟨hne, hsub⟩ := routeStages_ok hres
    cases services with
    | nil => exact absurd hne (by decide)
    | cons s t =>
      have h1 : (forOperation a op ctx cfgs m0).1 = buildService s opr := by
        rw [forOperation_ok_cons_eq m0 hres]
      refine ⟨fun m => ⟨fun hcon => ?_, fun hcon => ?_⟩, fun e he => ?_, fun msg2 op2 h2 => ?_⟩
      · rw [h1] at hcon
        unfold buildService at hcon
        cases hk : serviceTypesToServiceClasses s.typeName with
        | some k =>
          rw [hk] at hcon
          cases hcon
        | none =>
          rw [hk] at hcon
          injection hcon with he
          cases he
      · rw [h1] at hcon
        unfold buildService at hcon
        cases hk : serviceTypesToServiceClasses s.typeName with
        | some k =>
          rw [hk] at hcon
          cases hcon
        | none =>
          rw [hk] at hcon
          injection hcon with he
          cases he
      · rw [h1] at he
        unfold buildService at he
        cases hk : serviceTypesToServiceClasses s.typeName with
        | some k =>
          rw [hk] at he
          cases he
        | none =>
          rw [hk] at he
          injection he with he
          exact ⟨_, s, he.symm, hsub (List.mem_cons_self s t), hk⟩
      · injection h2 with he hop
        cases he

/-- Witness for C2 at a concrete input: the registry's only entry has
the unknown kind `"bogus"`, so `select` raises the adapter factory's
not-found error, which is indeed a `notFound` for a kind outside the
closed map. -/
theorem c2_select_error_contract_witness :
    ∃ m cfg, RouterError.notFound
        ("Could not find an appropriate service class for type \"" ++ "bogus" ++ "\"") =
        .notFound m ∧ cfg ∈ [c2WitCfg] ∧
      serviceTypesToServiceClasses cfg.typeName = none :=
  (c2_select_error_contract isMimeTypeAccepted c2WitOp c1CexCtx [c2WitCfg] none).2.1
    _ rfl


theorem forOperation_ok_nil_eq {a : String → String → Bool} {op : Operation}
    {ctx : RoutingContext} {cfgs : List ServiceConfig} {op' : Operation} (m0 : Option String)
    (h : routeStages a op ctx cfgs = (.ok [], op')) :
    forOperation a op ctx cfgs m0 =
      (.error (.typeError "Cannot read property 'type' of undefined"), op', m0) := by
  unfold forOperation
  rw [h]

theorem routeStages_ok_decomp {a : String → String → Bool} {op : Operation}
    {ctx : RoutingContext} {cfgs services : List ServiceConfig} {op' : Operation}
    (h : routeStages a op ctx cfgs = (.ok services, op')) :
    ∃ m1 m2, filterCollectionMatches op ctx cfgs = .ok m1 ∧
      filterVariableSubsettingMatches op ctx m1 = .ok m2 ∧
      filterOutputFormatMatches a op ctx m2 = (.ok services, op') := by
  unfold routeStages at h
  split at h
  · injection h with he
    cases he
  · rename_i m1 heq1
    split at h
    · injection h with he
      cases he
    · rename_i m2 heq2
      exact ⟨m1, m2, heq1, heq2, h⟩

/-- Claim C5 (amended): the only mutations `select` performs are writing
`operation.outputFormat` and, on a fallback, the module-level no-op
descriptor's `message` slot; the operation's `sources` (its only other
field), the context, and the descriptor list are unchanged (the latter
two by construction of the embedding). -/
theorem c5_router_frame (a : String → String → Bool) (op : Operation)
    (ctx : RoutingContext) (cfgs : List ServiceConfig) (m0 : Option String) :
    ((forOperation a op ctx cfgs m0).2.1).sources = op.sources ∧
    ((forOperation a op ctx cfgs m0).2.2 = m0 ∨
     ∃ m, (forOperation a op ctx cfgs m0).2.2 = some m ∧
       (forOperation a op ctx cfgs m0).1 =
         .ok { kind := .noOp, config := { noOpService with message := some m },
               operation := (forOperation a op ctx cfgs m0).2.1 }) := by
  have hsq := routeStages_sources a op ctx cfgs
  rcases hres : routeStages a op ctx cfgs with ⟨res, opr⟩
  rw [hres] at hsq
  cases res with
  | error msg =>
    obtain ⟨r, hr⟩ := combination_isOk hres
    have hfo := forOperation_fallback_eq m0 hres hr
    rw [hfo]
    exact ⟨hsq, Or.inr ⟨r, rfl, rfl⟩⟩
  | ok services =>
    cases services with
    | nil =>
      rw [forOperation_ok_nil_eq m0 hres]
      exact ⟨hsq, Or.inl rfl⟩
    | cons s t =>
      rw [forOperation_ok_cons_eq m0 hres]
      exact ⟨hsq, Or.inl rfl⟩

/-- Counterexample to C5 as stated: routing `c5CexOp` against an empty
registry leaves the module-level `noOpService.message` slot changed from
`none` to the stage-1 diagnostic, so `select` mutates module state
beyond `operation.outputFormat`. -/
theorem c5_counterexample :
    (forOperation isMimeTypeAccepted c5CexOp c1CexCtx [] none).2.2 = some collectionErrMsg ∧
    some collectionErrMsg ≠ (none : Option String) :=
  ⟨rfl, Option.some_ne_none _⟩

/-- Claim C1 (amended): whenever `select` succeeds and the operation
ends with a (truthy) resolved output format, the returned descriptor
either is the no-op fallback descriptor or carries an `outputFormats`
entry accepted by the resolved format. -/
theorem c1_format_consistency (a : String → String → Bool) (op : Operation)
    (ctx : RoutingContext) (cfgs : List ServiceConfig) (m0 : Option String) (svc : Service)
    (hok : (forOperation a op ctx cfgs m0).1 = .ok svc)
    (htr : truthyStr ((forOperation a op ctx cfgs m0).2.1).outputFormat = true) :
    (∃ m, svc.config = { noOpService with message := some m }) ∨
    (∃ f g, ((forOperation a op ctx cfgs m0).2.1).outputFormat = some f ∧
            g ∈ svc.config.outputFormats ∧ a g f = true) := by
  rcases hres : routeStages a op ctx cfgs with ⟨res, opr⟩
  cases res with
  | error msg =>
    obtain ⟨r, hr⟩ := combination_isOk hres
    have hfo := forOperation_fallback_eq m0 hres hr
    have h1 : (forOperation a op ctx cfgs m0).1 =
        .ok { kind := .noOp, config := { noOpService with message := some r },
              operation := opr } := by
      rw [hfo]
      rfl
    rw [h1] at hok
    injection hok with hsvc
    exact Or.inl ⟨r, by rw [← hsvc]⟩
  | ok services =>
    cases services with
    | nil =>
      rw [forOperation_ok_nil_eq m0 hres] at hok
      cases hok
    | cons s t =>
      have hfo := forOperation_ok_cons_eq m0 hres
      have hop2 : (forOperation a op ctx cfgs m0).2.1 = opr := by
        rw [hfo]
      rw [hfo] at hok
      rw [hop2] at htr
      obtain ⟨m1, m2, h1, h2, h3⟩ := routeStages_ok_decomp hres
      obtain ⟨f, g, hof, hmem, hacc⟩ := fOFM_ok_accepted h3 htr
      have hcfg : svc.config = s := by
        unfold buildService at hok
        cases hk : serviceTypesToServiceClasses s.typeName with
        | some k =>
          rw [hk] at hok
          injection hok with hsvc
          rw [← hsvc]
        | none =>
          rw [hk] at hok
          cases hok
      refine Or.inr ⟨f, g, ?_, ?_, hacc⟩
      · rw [hop2, hof]
      · rw [hcfg]
        exact hmem

/-- Counterexample to C1 as stated: with `operation.outputFormat`
already `image/png` and an empty registry, `select` returns the no-op
fallback descriptor while the resolved format stays `image/png`; none
of the fallback's `outputFormats` entries is accepted by it. -/
theorem c1_counterexample :
    (forOperation isMimeTypeAccepted c1CexOp c1CexCtx [] none).1 = .ok c1CexService ∧
    ((forOperation isMimeTypeAccepted c1CexOp c1CexCtx [] none).2.1).outputFormat =
      some "image/png" ∧
    c1CexService.config.outputFormats.all
      (fun g => !(isMimeTypeAccepted g "image/png")) = true :=
  ⟨rfl, rfl, by decide⟩

/-- Witness for the amended C1 at a concrete input: a successful
non-fallback selection whose descriptor carries an accepted entry. -/
theorem c1_format_consistency_witness :
    (∃ m, c1WitService.config = { noOpService with message := some m }) ∨
    (∃ f g, ((forOperation isMimeTypeAccepted c1CexOp c1CexCtx [c1WitCfg] none).2.1).outputFormat =
        some f ∧ g ∈ c1WitService.config.outputFormats ∧ isMimeTypeAccepted g f = true) :=
  c1_format_consistency isMimeTypeAccepted c1CexOp c1CexCtx [c1WitCfg] none c1WitService rfl rfl


theorem selectFormat_of_truthy {a : String → String → Bool} {op : Operation}
    {ctx : RoutingContext} {cfgs : List ServiceConfig}
    (h : truthyStr op.outputFormat = true) :
    selectFormat a op ctx cfgs = op.outputFormat := by
  unfold selectFormat
  rw [if_neg]
  intro hc
  rw [h] at hc
  exact absurd rfl hc.1

theorem selectFormat_of_falsy {a : String → String → Bool} {op : Operation}
    {ctx : RoutingContext} {cfgs : List ServiceConfig}
    (h : truthyStr op.outputFormat = false) (hne : ctx.requestedMimeTypes ≠ []) :
    selectFormat a op ctx cfgs =
      selectFormatLoop a cfgs op.outputFormat ctx.requestedMimeTypes := by
  unfold selectFormat
  rw [if_pos]
  constructor
  · rw [h]
    exact Bool.false_ne_true
  · simpa [List.isEmpty_iff] using hne

theorem formatStageCore_of_format {a : String → String → Bool} {op : Operation}
    {ctx : RoutingContext} {cfgs : List ServiceConfig} {f : String}
    (hcond : truthyStr op.outputFormat = true ∨ ¬ ctx.requestedMimeTypes.isEmpty = true)
    (hsf : selectFormat a op ctx cfgs = some f) (hf : f ≠ "") :
    formatStageCore a op ctx cfgs =
      (selectServicesForFormat a f cfgs, { op with outputFormat := some f }) := by
  unfold formatStageCore
  rw [if_pos hcond, hsf]
  dsimp only
  rw [if_neg hf]

theorem formatStageCore_of_falsy {a : String → String → Bool} {op : Operation}
    {ctx : RoutingContext} {cfgs : List ServiceConfig}
    (hcond : truthyStr op.outputFormat = true ∨ ¬ ctx.requestedMimeTypes.isEmpty = true)
    (hsf : truthyStr (selectFormat a op ctx cfgs) = false) :
    formatStageCore a op ctx cfgs = ([], op) := by
  unfold formatStageCore
  rw [if_pos hcond]
  rcases truthyStr_eq_false_iff.mp hsf with hn | he
  · rw [hn]
  · rw [he]
    dsimp only
    rw [if_pos rfl]

theorem fOFM_from_core {a : String → String → Bool} {op : Operation}
    {ctx : RoutingContext} {cfgs services : List ServiceConfig} {op2 : Operation}
    (h : formatStageCore a op ctx cfgs = (services, op2)) :
    (filterOutputFormatMatches a op ctx cfgs).2 = op2 ∧
    (services.isEmpty = false →
       (filterOutputFormatMatches a op ctx cfgs).1 = .ok services) ∧
    (services.isEmpty = true →
       (filterOutputFormatMatches a op ctx cfgs).1 =
         .error (formatErrMsgHead ++ "[" ++ formatsDesc op2 ctx ++ "]")) := by
  refine ⟨?_, ?_, ?_⟩
  · rw [fOFM_snd, h]
  · intro hne
    rw [fOFM_eq, h]
    show (if services.isEmpty = true then _ else ((Except.ok services :
      Except String (List ServiceConfig)), op2)).1 = Except.ok services
    rw [hne, if_neg Bool.false_ne_true]
  · intro he
    rw [fOFM_eq, h]
    show (if services.isEmpty = true then
      ((Except.error (formatErrMsgHead ++ "[" ++ formatsDesc op2 ctx ++ "]") :
        Except String (List ServiceConfig)), op2) else _).1 = _
    rw [he, if_pos rfl]

/-- Claim C3 (amended): in the format stage, the resolved output format
is the preexisting truthy `operation.outputFormat` when set, and the
spec's scan of `context.requestedMimeTypes` only otherwise; a resolved
format is written onto the operation and the descriptors are filtered
to those supporting it (failure when none does), while an unresolvable
format leaves the operation unchanged and fails the stage. -/
theorem c3_format_stage (a : String → String → Bool) (op : Operation)
    (ctx : RoutingContext) (cfgs : List ServiceConfig)
    (h : truthyStr op.outputFormat = true ∨ ctx.requestedMimeTypes ≠ []) :
    (∀ f, resolvedFormatSpec a op ctx cfgs = some f →
       f ≠ "" ∧
       (filterOutputFormatMatches a op ctx cfgs).2 = { op with outputFormat := some f } ∧
       ((selectServicesForFormat a f cfgs).isEmpty = false →
          (filterOutputFormatMatches a op ctx cfgs).1 = .ok (selectServicesForFormat a f cfgs)) ∧
       ((selectServicesForFormat a f cfgs).isEmpty = true →
          ∃ m, (filterOutputFormatMatches a op ctx cfgs).1 = .error m)) ∧
    (resolvedFormatSpec a op ctx cfgs = none →
       (filterOutputFormatMatches a op ctx cfgs).2 = op ∧
       ∃ m, (filterOutputFormatMatches a op ctx cfgs).1 = .error m) := by
  have hcond : truthyStr op.outputFormat = true ∨ ¬ ctx.requestedMimeTypes.isEmpty = true := by
    rcases h with h | h
    · exact Or.inl h
    · exact Or.inr (by simpa [List.isEmpty_iff] using h)
  by_cases htr : truthyStr op.outputFormat = true
  · -- preexisting truthy format: kept as-is
    have hres : resolvedFormatSpec a op ctx cfgs = op.outputFormat := by
      unfold resolvedFormatSpec
      rw [if_pos htr]
    have hsf := @selectFormat_of_truthy a op ctx cfgs htr
    refine ⟨fun f hf => ?_, fun hf => ?_⟩
    · rw [hres] at hf
      have hfne : f ≠ "" := by
        rw [hf] at htr
        exact truthyStr_some_iff.mp htr
      have hcore := formatStageCore_of_format hcond (by rw [hsf, hf]) hfne
      obtain ⟨hsnd, hok, herr⟩ := fOFM_from_core hcore
      exact ⟨hfne, hsnd, hok, fun he => ⟨_, herr he⟩⟩
    · rw [hres] at hf
      rw [hf] at htr
      cases htr
  · -- scan the requested MIME types
    have htr' : truthyStr op.outputFormat = false := Bool.of_not_eq_true htr
    have hmne : ctx.requestedMimeTypes ≠ [] := by
      rcases h with h | h
      · exact absurd h htr
      · exact h
    have hres : resolvedFormatSpec a op ctx cfgs =
        specScanList a cfgs ctx.requestedMimeTypes := by
      unfold resolvedFormatSpec specScanFormat
      rw [if_neg htr]
    have hsf := @selectFormat_of_falsy a op ctx cfgs htr' hmne
    have hloopspec := selectFormatLoop_spec a cfgs ctx.requestedMimeTypes op.outputFormat htr'
    refine ⟨fun f hf => ?_, fun hf => ?_⟩
    · rw [hres] at hf
      have hfne : f ≠ "" := specScanList_some_ne hf
      have hloop : selectFormatLoop a cfgs op.outputFormat ctx.requestedMimeTypes = some f :=
        hloopspec.1 f hf
      have hcore := formatStageCore_of_format hcond (by rw [hsf, hloop]) hfne
      obtain ⟨hsnd, hok, herr⟩ := fOFM_from_core hcore
      exact ⟨hfne, hsnd, hok, fun he => ⟨_, herr he⟩⟩
    · rw [hres] at hf
      have hloop : truthyStr (selectFormatLoop a cfgs op.outputFormat ctx.requestedMimeTypes) =
          false := hloopspec.2 hf
      have hcore := formatStageCore_of_falsy hcond (by rw [hsf]; exact hloop)
      obtain ⟨hsnd, _, herr⟩ := fOFM_from_core hcore
      exact ⟨hsnd, ⟨_, herr rfl⟩⟩

/-- Counterexample to C3 as stated: `operation.outputFormat` is already
`image/png` while the scan of the requested MIME types would resolve
`application/json` (supported by the lone descriptor); the stage keeps
`image/png` — the scanned value is not what is written back. -/
theorem c3_counterexample :
    specScanFormat isMimeTypeAccepted c3CexCtx [c3CexCfg] = some "application/json" ∧
    ((filterOutputFormatMatches isMimeTypeAccepted c3CexOp c3CexCtx [c3CexCfg]).2).outputFormat =
      some "image/png" ∧
    some "image/png" ≠ (some "application/json" : Option String) :=
  ⟨rfl, rfl, by decide⟩

/-- Witness for the amended C3 at a concrete input: no preexisting
format, one requested MIME type, one matching descriptor. -/
theorem c3_format_stage_witness :
    "application/json" ≠ "" ∧
    ((filterOutputFormatMatches isMimeTypeAccepted c3WitOp c3CexCtx [c3CexCfg]).2 =
       { c3WitOp with outputFormat := some "application/json" }) ∧
    ((selectServicesForFormat isMimeTypeAccepted "application/json" [c3CexCfg]).isEmpty = false →
       (filterOutputFormatMatches isMimeTypeAccepted c3WitOp c3CexCtx [c3CexCfg]).1 =
         .ok (selectServicesForFormat isMimeTypeAccepted "application/json" [c3CexCfg])) ∧
    ((selectServicesForFormat isMimeTypeAccepted "application/json" [c3CexCfg]).isEmpty = true →
       ∃ m, (filterOutputFormatMatches isMimeTypeAccepted c3WitOp c3CexCtx [c3CexCfg]).1 =
         .error m) :=
  (c3_format_stage isMimeTypeAccepted c3WitOp c3CexCtx [c3CexCfg]
    (Or.inr (by decide))).1 "application/json" rfl


/-- Claim C4: when an operation requiring variable subsetting fails at
the format stage, `select` returns the no-op descriptor whose message is
the joint subsetting-plus-format diagnosis exactly when re-running the
collection stage and the format resolution over the full descriptor
list (ignoring the subsetting constraint) yields a non-empty match;
otherwise the original format-stage reason is kept. -/
theorem c4_combination_diagnosis (a : String → String → Bool) (op : Operation)
    (ctx : RoutingContext) (cfgs : List ServiceConfig) (m0 : Option String)
    {m1 m2 : List ServiceConfig} {msg : String} {op3 : Operation}
    (hreq : requiresVariableSubsetting op = true)
    (h1 : filterCollectionMatches op ctx cfgs = .ok m1)
    (h2 : filterVariableSubsettingMatches op ctx m1 = .ok m2)
    (h3 : filterOutputFormatMatches a op ctx m2 = (.error msg, op3)) :
    (forOperation a op ctx cfgs m0).1 =
      .ok { kind := .noOp,
            config := { noOpService with
              message := some (if (rerunIgnoringSubsetting a op3 ctx cfgs).isEmpty then msg
                else combinationMsgHead ++ "[" ++ formatsDesc op3 ctx ++ "]") },
            operation := op3 } := by
  have hroute : routeStages a op ctx cfgs = (.error msg, op3) := by
    unfold routeStages
    rw [h1]
    dsimp only
    rw [h2]
    dsimp only
    exact h3
  have hsrc : op3.sources = op.sources := by
    have hh := routeStages_sources a op ctx cfgs
    rw [hroute] at hh
    exact hh
  have hshape := fOFM_error_shape h3
  have hinc : strIncludes msg "reformatting to any of the requested formats" = true := by
    rw [hshape, String.append_assoc, String.append_assoc]
    exact strIncludes_formatErr _
  have hreq3 : requiresVariableSubsetting op3 = true := by
    rw [requiresVariableSubsetting_congr hsrc]
    exact hreq
  have hcm3 : filterCollectionMatches op3 ctx cfgs = .ok m1 :=
    (filterCollectionMatches_congr hsrc ctx ctx cfgs).trans h1
  have hcomb : unsupportedCombinationMessage a op3 ctx cfgs msg =
      .ok (if (rerunIgnoringSubsetting a op3 ctx cfgs).isEmpty then msg
           else combinationMsgHead ++ "[" ++ formatsDesc op3 ctx ++ "]") := by
    unfold unsupportedCombinationMessage rerunIgnoringSubsetting
    rw [hinc, if_pos rfl, if_pos hreq3, hcm3]
    dsimp only
    cases hsf : selectFormat a op3 ctx m1 with
    | none => rfl
    | some f =>
      dsimp only
      by_cases hf : f = ""
      · simp [hf]
      · by_cases hse : (selectServicesForFormat a f m1).isEmpty = true
        · simp [hf, hse]
        · simp [hf, hse]
  have hfo := forOperation_fallback_eq m0 hroute hcomb
  rw [hfo]
  rfl

/-- Witness for C4 at a concrete input: the operation needs variable
subsetting and `image/png`; the only subsetting-capable service cannot
produce `image/png`, but another service can, so the no-op selection
carries the joint diagnosis. -/
theorem c4_combination_diagnosis_witness :
    (forOperation isMimeTypeAccepted c4WitOp c1CexCtx [c4WitCfgVar, c4WitCfgPng] none).1 =
      .ok { kind := .noOp,
            config := { noOpService with
              message := some (combinationMsgHead ++ "[" ++ "image/png" ++ "]") },
            operation := c4WitOp } :=
  c4_combination_diagnosis isMimeTypeAccepted c4WitOp c1CexCtx [c4WitCfgVar, c4WitCfgPng]
    none (by decide) rfl rfl rfl


/-- Claim C7: a callback whose request id matches no persisted job rolls
back, answers 404 with a diagnostic body, and mutates nothing. -/
theorem c7_unknown_job (P : JsPrims) (req : ReqMeta) :
    responseHandler P none req =
      { httpStatus := 404, committed := false, persistedJob := none, uploads := [] } := rfl

/-- Claim C10: a body-bearing callback on a job without an `s3-access`
link hits the failing `[0].href` lookup; the `TypeError` is caught,
the transaction rolls back, and the response is 400 — not a crash or a
500. -/
theorem c10_missing_staging_link (P : JsPrims) (job : Job) (req : ReqMeta)
    (hbody : bodyIsFileResult req = true)
    (hlinks : job.getRelatedLinks "s3-access" = []) :
    responseHandler P (some job) req =
      { httpStatus := 400, committed := false, persistedJob := none, uploads := [] } := by
  have hstage : stagingAttempt P job req =
      .error (.typeError "Cannot read property 'href' of undefined") := by
    unfold stagingAttempt
    rw [if_pos hbody, hlinks]
    rfl
  unfold responseHandler
  dsimp only
  rw [hstage]
  rfl

/-- Witness for C10: a job with no links at all, a request declaring 42
body bytes. -/
theorem c10_missing_staging_link_witness :
    responseHandler decPrims (some c10WitJob) c10WitReq =
      { httpStatus := 400, committed := false, persistedJob := none, uploads := [] } :=
  c10_missing_staging_link decPrims c10WitJob c10WitReq (by decide) rfl

theorem bboxStep_none {P : JsPrims} {item : CallbackQueryItem} {link : JobLink}
    (h : item.bbox = none) : bboxStep P item link = .ok link := by
  unfold bboxStep
  rw [h]

theorem temporalStep_none {P : JsPrims} {item : CallbackQueryItem} {link : JobLink}
    (h : item.temporal = none) : temporalStep P item link = .ok link := by
  unfold temporalStep
  rw [h]

theorem bboxStep_quad {P : JsPrims} {item : CallbackQueryItem} {link : JobLink} {b : String}
    (hb : item.bbox = some b) (hbne : b ≠ "") :
    (∀ xs, parsesToQuad ((jsSplit ',' b).map P.parseFloat) = some xs →
       bboxStep P item link = .ok { link with bbox := some xs }) ∧
    (parsesToQuad ((jsSplit ',' b).map P.parseFloat) = none →
       ∃ m, bboxStep P item link = .error m) := by
  unfold bboxStep
  rw [hb]
  dsimp only
  rw [if_neg hbne]
  constructor
  · intro xs hxs
    unfold parsesToQuad at hxs
    split at hxs
    · injection hxs with hxs
      rw [hxs]
    · cases hxs
  · intro hnone
    unfold parsesToQuad at hnone
    split at hnone
    · cases hnone
    · exact ⟨_, rfl⟩

theorem temporalStep_pair {P : JsPrims} {item : CallbackQueryItem} {link : JobLink}
    {tp : String}
    (ht : item.temporal = some tp) (htne : tp ≠ "") :
    (∀ ts, parsesToPair ((jsSplit ',' tp).map P.dateParse) = some ts →
       temporalStep P item link =
         .ok { link with temporal := some (P.toISO ts.1, P.toISO ts.2) }) ∧
    (parsesToPair ((jsSplit ',' tp).map P.dateParse) = none →
       ∃ m, temporalStep P item link = .error m) := by
  unfold temporalStep
  rw [ht]
  dsimp only
  rw [if_neg htne]
  constructor
  · intro ts hts
    unfold parsesToPair at hts
    split at hts
    · injection hts with hts
      rw [← hts]
    · cases hts
  · intro hnone
    unfold parsesToPair at hnone
    split at hnone
    · cases hnone
    · exact ⟨_, rfl⟩

/-- An accepted progress string is stored as its `parseInt` value; no
other transition of the final error/status/redirect step touches
`progress`. -/
theorem updateJobFieldsInner_progress {P : JsPrims} {job : Job} {q : CallbackQuery}
    {job' : Job} {p : String}
    (hp : q.progress = some p) (hpne : p ≠ "")
    (hok : updateJobFieldsInner P job q = .ok job') :
    job'.progress = P.parseInt10 p := by
  unfold updateJobFieldsInner at hok
  split at hok
  · cases hok
  · rename_i job1 heq1
    rw [hp] at hok
    dsimp only at hok
    rw [if_neg hpne] at hok
    by_cases hnc : (P.numberCoerce p).isNone = true
    · rw [if_pos hnc] at hok
      dsimp only at hok
      cases hok
    · rw [if_neg hnc] at hok
      dsimp only at hok
      split at hok
      · injection hok with h
        rw [← h]
        try rfl
      · split at hok
        · unfold Job.updateStatus at hok
          split at hok
          · injection hok with h
            rw [← h]
            try rfl
          · cases hok
        · split at hok
          · injection hok with h
            rw [← h]
            try rfl
          · injection hok with h
            rw [← h]
            try rfl

/-- Claim C9 (amended): a callback progress value accepted without a
validation error is stored as its integer parse, so the job's [0,100]
progress invariant is preserved exactly when the parsed value lies in
[0,100] — the handler itself does not enforce the range. -/
theorem c9_progress_range (P : JsPrims) (job : Job) (q : CallbackQuery) (p : String)
    (job' : Job) (n : Int)
    (hp : q.progress = some p) (hpne : p ≠ "")
    (hok : updateJobFields P job q = .ok job')
    (hparse : P.parseInt10 p = some n) (h0 : 0 ≤ n) (h100 : n ≤ 100) :
    job'.progress = some n ∧ 0 ≤ n ∧ n ≤ 100 := by
  have hinner : updateJobFieldsInner P job q = .ok job' := by
    unfold updateJobFields at hok
    split at hok
    · rename_i j heq
      injection hok with h
      rw [← h]
      exact heq
    · cases hok
  rw [updateJobFieldsInner_progress hp hpne hinner, hparse]
  exact ⟨rfl, h0, h100⟩

/-- Counterexample to C9 as stated: the numeric string `"150"` is
accepted without a validation error, and the stored progress is 150,
outside [0,100]. -/
theorem c9_counterexample :
    updateJobFields decPrims c9CexJob c9CexQuery =
      .ok { c9CexJob with progress := some 150 } ∧
    ¬ ((150 : Int) ≤ 100) :=
  ⟨rfl, by decide⟩

/-- Witness for the amended C9 at a concrete input: progress `"50"` is
stored as 50, inside the range. -/
theorem c9_progress_range_witness :
    ({ c9CexJob with progress := some 50 } : Job).progress = some 50 ∧
    (0 : Int) ≤ 50 ∧ (50 : Int) ≤ 100 :=
  c9_progress_range decPrims c9CexJob c9WitQuery "50"
    { c9CexJob with progress := some 50 } 50 rfl (by decide) rfl rfl (by decide) (by decide)


theorem bboxStep_rel {P : JsPrims} {item : CallbackQueryItem} {link l2 : JobLink}
    (h : bboxStep P item link = .ok l2) : l2.rel = link.rel := by
  unfold bboxStep at h
  split at h
  · split at h
    · injection h with h
      rw [← h]
    · split at h
      · injection h with h
        rw [← h]
      · cases h
  · injection h with h
    rw [← h]

theorem temporalStep_rel {P : JsPrims} {item : CallbackQueryItem} {link l2 : JobLink}
    (h : temporalStep P item link = .ok l2) : l2.rel = link.rel := by
  unfold temporalStep at h
  split at h
  · split at h
    · injection h with h
      rw [← h]
    · split at h
      · injection h with h
        rw [← h]
      · cases h
  · injection h with h
    rw [← h]

/-- Claim C8: for a callback item, a truthy `bbox` string is stored as
its 4 parsed floats exactly when it splits into exactly 4 parsable
parts and raises a validation error (surfaced as 400) otherwise; a
truthy `temporal` string is stored as its 2 canonicalized timestamps
exactly when it parses to exactly 2 timestamps, erroring otherwise;
`rel` defaults to `"data"` when absent; a valid link is appended to the
job and a link failure surfaces as a 400 validation error. -/
theorem c8_link_validation (P : JsPrims) (job : Job) (item : CallbackQueryItem) :
    (∀ b, item.bbox = some b → b ≠ "" → item.temporal = none →
       (∀ xs, parsesToQuad ((jsSplit ',' b).map P.parseFloat) = some xs →
          ∃ link, buildLink P item = .ok link ∧ link.bbox = some xs) ∧
       (parsesToQuad ((jsSplit ',' b).map P.parseFloat) = none →
          ∃ m, buildLink P item = .error m)) ∧
    (∀ tp, item.temporal = some tp → tp ≠ "" → item.bbox = none →
       (∀ ts, parsesToPair ((jsSplit ',' tp).map P.dateParse) = some ts →
          ∃ link, buildLink P item = .ok link ∧
            link.temporal = some (P.toISO ts.1, P.toISO ts.2)) ∧
       (parsesToPair ((jsSplit ',' tp).map P.dateParse) = none →
          ∃ m, buildLink P item = .error m)) ∧
    (∀ link, buildLink P item = .ok link →
       link.rel = some (match item.rel with
                        | some r => if r = "" then "data" else r
                        | none => "data")) ∧
    (∀ q link, q.item = some item → q.progress = none → q.error = none → q.status = none →
       q.redirect = none → buildLink P item = .ok link →
       updateJobFields P job q = .ok (job.addLink link)) ∧
    (∀ q m, q.item = some item → buildLink P item = .error m →
       updateJobFields P job q = .error (.validation m) ∧
       statusOf (.validation m) = 400) := by
  refine ⟨fun b hb hbne htmp => ⟨fun xs hxs => ?_, fun hnone => ?_⟩,
          fun tp ht htne hbb => ⟨fun ts hts => ?_, fun hnone => ?_⟩,
          fun link hok => ?_, fun q link hitem hprog herr hstat hred hbl => ?_,
          fun q m hitem hble => ?_⟩
  · -- valid bbox is stored
    have hbs := (@bboxStep_quad P item
      { href := item.href, type := item.type, rel := item.rel, title := item.title }
      b hb hbne).1 xs hxs
    refine ⟨relStep
      { href := item.href, type := item.type, rel := item.rel, title := item.title,
        bbox := some xs, temporal := none }, ?_, rfl⟩
    unfold buildLink
    rw [hbs]
    dsimp only
    rw [temporalStep_none htmp]
    try rfl
  · -- invalid bbox raises
    obtain ⟨m, hbs⟩ := (@bboxStep_quad P item
      { href := item.href, type := item.type, rel := item.rel, title := item.title }
      b hb hbne).2 hnone
    refine ⟨m, ?_⟩
    unfold buildLink
    rw [hbs]
  · -- valid temporal is stored
    have hts' := (@temporalStep_pair P item
      { href := item.href, type := item.type, rel := item.rel, title := item.title }
      tp ht htne).1 ts hts
    refine ⟨relStep
      { href := item.href, type := item.type, rel := item.rel, title := item.title,
        bbox := none, temporal := some (P.toISO ts.1, P.toISO ts.2) }, ?_, rfl⟩
    unfold buildLink
    rw [bboxStep_none hbb]
    dsimp only
    rw [hts']
    try rfl
  · -- invalid temporal raises
    obtain ⟨m, hts'⟩ := (@temporalStep_pair P item
      { href := item.href, type := item.type, rel := item.rel, title := item.title }
      tp ht htne).2 hnone
    refine ⟨m, ?_⟩
    unfold buildLink
    rw [bboxStep_none hbb]
    dsimp only
    rw [hts']
  · -- rel defaulting
    unfold buildLink at hok
    split at hok
    · cases hok
    · rename_i link1 heq1
      split at hok
      · cases hok
      · rename_i link2 heq2
        injection hok with hok
        rw [← hok]
        unfold relStep
        rw [temporalStep_rel heq2, bboxStep_rel heq1]
  · -- a valid link is appended
    unfold updateJobFields updateJobFieldsInner
    rw [hitem]
    dsimp only
    rw [hbl]
    dsimp only
    rw [hprog]
    dsimp only
    rw [herr, hstat, hred]
    rfl
  · -- a link failure surfaces as a 400 validation error
    refine ⟨?_, rfl⟩
    unfold updateJobFields updateJobFieldsInner
    rw [hitem]
    dsimp only
    rw [hble]

/-- Witness for C8 at a concrete input: `bbox = "10,20,30,40"` is stored
as the four floats 10, 20, 30, 40. -/
theorem c8_link_validation_witness :
    ∃ link, buildLink decPrims c8WitItem = .ok link ∧
      link.bbox = some [(10 : Rat), 20, 30, 40] :=
  ((c8_link_validation decPrims c8WitJob c8WitItem).1 "10,20,30,40" rfl (by decide) rfl).1
    [(10 : Rat), 20, 30, 40] rfl


/-- Claim C6: a callback to a synchronous job with a non-empty body, no
`item.href`, no `error`, and no explicit `status` stages the body to the
job's staging location and leaves the job `successful`. -/
theorem c6_sync_body_success (P : JsPrims) (job : Job) (it : CallbackQueryItem)
    (q : CallbackQuery) (l : JobLink) (rest : List JobLink) (ttl sl cl : String)
    (ct : Option String)
    (hasync : job.isAsync = false)
    (hitem : q.item = some it)
    (hhref : it.href = none) (hbb : it.bbox = none) (htmp : it.temporal = none)
    (httl : it.title = some ttl) (httlne : ttl ≠ "")
    (herr : q.error = none) (hst : q.status = none) (hpr : q.progress = none)
    (hcl : cl ≠ "") (hcl0 : cl ≠ "0")
    (hlink : job.getRelatedLinks "s3-access" = l :: rest) (hsl : l.href = some sl) :
    (responseHandler P (some job) (reqOf q ct cl)).httpStatus = 200 ∧
    (responseHandler P (some job) (reqOf q ct cl)).committed = true ∧
    (responseHandler P (some job) (reqOf q ct cl)).uploads = [sl ++ ttl] ∧
    ∃ job', (responseHandler P (some job) (reqOf q ct cl)).persistedJob = some job' ∧
      job'.status = .successful := by
  obtain ⟨qi, qe, qr, qs, qp⟩ := q
  obtain ⟨ih, ity, irl, itl, itm, ibx⟩ := it
  dsimp only at hitem hhref hbb htmp httl herr hst hpr
  subst hitem hhref hbb htmp httl herr hst hpr
  have hb : bodyIsFileResult (reqOf
      { item := some { href := none, type := ity, rel := irl, title := some ttl,
                       temporal := none, bbox := none },
        error := none, redirect := qr, status := none, progress := none } ct cl) = true := by
    simp [bodyIsFileResult, reqOf, truthyStr, hcl, hcl0]
  have hstage : stagingAttempt P job (reqOf
      { item := some { href := none, type := ity, rel := irl, title := some ttl,
                       temporal := none, bbox := none },
        error := none, redirect := qr, status := none, progress := none } ct cl) =
      .ok ({ item := some { href := some (sl ++ ttl), type := contentTypeOf ct },
             error := none, redirect := none, status := some "successful", progress := none },
           [sl ++ ttl]) := by
    unfold stagingAttempt
    rw [if_pos hb, hlink]
    dsimp only [List.head?]
    rw [hsl]
    dsimp only [jsStrOpt]
    rw [show deriveFilename (reqOf
      { item := some { href := none, type := ity, rel := irl, title := some ttl,
                       temporal := none, bbox := none },
        error := none, redirect := qr, status := none, progress := none } ct cl) =
      some ttl from rfl]
    dsimp only
    rw [if_neg httlne, hasync, if_neg Bool.false_ne_true]
    rfl
  unfold responseHandler
  dsimp only
  rw [hstage]
  dsimp only
  exact ⟨rfl, rfl, rfl, ⟨_, rfl, rfl⟩⟩

/-- Witness for C6 at a concrete input: a synchronous running job with a
staging link, a 42-byte body, filename from `item[title]`. -/
theorem c6_sync_body_success_witness :
    (responseHandler decPrims (some c6WitJob) (reqOf c6WitQuery none "42")).httpStatus = 200 ∧
    (responseHandler decPrims (some c6WitJob) (reqOf c6WitQuery none "42")).committed = true ∧
    (responseHandler decPrims (some c6WitJob) (reqOf c6WitQuery none "42")).uploads =
      ["s3://bucket/public/stage/" ++ "out.nc"] ∧
    ∃ job', (responseHandler decPrims (some c6WitJob) (reqOf c6WitQuery none "42")).persistedJob =
      some job' ∧ job'.status = .successful :=
  c6_sync_body_success decPrims c6WitJob { title := some "out.nc" } c6WitQuery
    c6WitLink [] "out.nc" "s3://bucket/public/stage/" "42" none
    rfl rfl rfl rfl rfl rfl (by decide) rfl rfl rfl (by decide) (by decide) rfl rfl


end Harmony
